import Mathlib

/-!
Shallow embedding of the compliance-evaluation core of SafetySnap
(src/server/services/ppeAnalysisService.js).

Conventions of the embedding:
* JavaScript numbers are modelled as rationals (ℚ); every confidence in the
  program is compared only against 0.5, so this is exact.  Rational
  constants are written with `mkRat` (e.g. `mkRat 95 100` for `0.95`) and
  the score arithmetic is carried out on the numerator/denominator
  representation, keeping every definition kernel-computable.
* A JavaScript field that may be `undefined` (a detection missing its
  `class` or `confidence`) is modelled as an `Option`; `undefined > 0.5`
  is `false` in JavaScript, which the embedding mirrors by returning
  `false` when the confidence is `none`.
* A JavaScript property access on an object literal
  (`this.ppeItems[detection.class]`, `requirements[workEnvironment]`)
  traverses the prototype chain: a key inherited from `Object.prototype`
  (`constructor`, `toString`, `__proto__`, ...) yields a truthy value.
  `lookupItemJs` / `getPPERequirementsJs` and `analyzeComplianceJs`
  model this full semantics; `lookupItem` / `getPPERequirements` and
  `analyzeCompliance` are their restrictions to inputs whose labels and
  names avoid `objectPrototypeKeys` (the agreement is proved in
  `lookupItemJs_agrees` and `getPPERequirementsJs_agrees`), which covers
  every genuine catalog label and profile name.
* The ES2015 `Set` used for `detectedCategories` keeps insertion order and
  ignores re-insertions; it is modelled as a duplicate-free list built by
  `addCat`.
-/

namespace SafetySnap

/-- One entry of the `this.ppeItems` object literal
(ppeAnalysisService.js lines 9-26).  The `person` entry has no
`aliases` key in the source, hence `aliases : Option (List String)`. -/
structure CatalogEntry where
  required : Bool
  category : String
  aliases : Option (List String)
deriving DecidableEq, Repr

/-- The `this.ppeItems` catalog, verbatim from lines 10-25 of the source. -/
def ppeItems : List (String × CatalogEntry) := [
  ("person", ⟨true, "person", none⟩),
  ("helmet", ⟨true, "head_protection", some ["hard hat", "safety helmet"]⟩),
  ("hard hat", ⟨true, "head_protection", some ["helmet", "safety helmet"]⟩),
  ("safety helmet", ⟨true, "head_protection", some ["helmet", "hard hat"]⟩),
  ("safety vest", ⟨true, "visibility", some ["reflective vest", "hi-vis vest"]⟩),
  ("reflective vest", ⟨true, "visibility", some ["safety vest", "hi-vis vest"]⟩),
  ("hi-vis vest", ⟨true, "visibility", some ["safety vest", "reflective vest"]⟩),
  ("safety glasses", ⟨true, "eye_protection", some ["protective eyewear", "goggles"]⟩),
  ("goggles", ⟨true, "eye_protection", some ["safety glasses", "protective eyewear"]⟩),
  ("protective eyewear", ⟨true, "eye_protection", some ["safety glasses", "goggles"]⟩),
  ("gloves", ⟨true, "hand_protection", some ["safety gloves", "work gloves"]⟩),
  ("safety gloves", ⟨true, "hand_protection", some ["gloves", "work gloves"]⟩),
  ("work gloves", ⟨true, "hand_protection", some ["gloves", "safety gloves"]⟩),
  ("boots", ⟨true, "foot_protection", some ["safety boots", "work boots"]⟩),
  ("safety boots", ⟨true, "foot_protection", some ["boots", "work boots"]⟩),
  ("work boots", ⟨true, "foot_protection", some ["boots", "safety boots"]⟩)]

/-- The own-property part of the access `this.ppeItems[detection.class]`
(line 140): exact for every label outside `objectPrototypeKeys`; the
full access, prototype chain included, is `lookupItemJs`. -/
def lookupItem (label : String) : Option CatalogEntry :=
  ppeItems.lookup label

/-- `this.requiredCategories` (line 28), fixed at construction time and
used by `analyzeCompliance` for every evaluation. -/
def requiredCategories : List String :=
  ["head_protection", "visibility", "eye_protection", "hand_protection", "foot_protection"]

/-- One raw detection record as consumed by `analyzeCompliance`.
`cls` models the `class` field (a Lean keyword).  `Option` models the
possibility of a missing (`undefined`) field. -/
structure Detection where
  cls : Option String
  confidence : Option ℚ
  bbox : List ℚ
deriving DecidableEq, Repr

/-- One element of the `detectedItems` array pushed at lines 143-148. -/
structure DetectedItem where
  item : String
  category : String
  confidence : Option ℚ
  bbox : List ℚ
deriving DecidableEq, Repr

/-- `detectedCategories.add(category)`: an ES2015 `Set` keeps insertion
order and ignores an element already present. -/
def addCat (cats : List String) (c : String) : List String :=
  if cats.contains c then cats else cats ++ [c]

/-- The body of the `detections.forEach` loop at lines 135-150, as a fold
step over the accumulator `(detectedCategories, detectedItems,
personDetected)`.  `detection.class === 'person'` sets `personDetected`
regardless of confidence; the catalog lookup and the strict
`confidence > 0.5` test gate the category/item updates.  A missing
`class` makes the lookup miss; a missing `confidence` fails the
comparison (as `undefined > 0.5` does in JavaScript). -/
def step (acc : List String × List DetectedItem × Bool) (d : Detection) :
    List String × List DetectedItem × Bool :=
  let person := acc.2.2 || (d.cls == some "person")
  match d.cls with
  | none => (acc.1, acc.2.1, person)
  | some label =>
    match lookupItem label with
    | none => (acc.1, acc.2.1, person)
    | some entry =>
      match d.confidence with
      | none => (acc.1, acc.2.1, person)
      | some c =>
        if mkRat 1 2 < c then
          (addCat acc.1 entry.category,
           acc.2.1 ++ [⟨label, entry.category, some c, d.bbox⟩],
           person)
        else (acc.1, acc.2.1, person)

/-- The whole `forEach` loop: fold `step` from the empty accumulator
(lines 130-150). -/
def processAll (detections : List Detection) :
    List String × List DetectedItem × Bool :=
  detections.foldl step ([], [], false)

/-- The `detectedCategories` set after the loop, in insertion order
(this is what `Array.from(detectedCategories)` returns at line 167). -/
def detectedCategoriesOf (detections : List Detection) : List String :=
  (processAll detections).1

/-- The `detectedItems` array after the loop. -/
def detectedItemsOf (detections : List Detection) : List DetectedItem :=
  (processAll detections).2.1

/-- The `personDetected` flag after the loop. -/
def personDetectedOf (detections : List Detection) : Bool :=
  (processAll detections).2.2

/-- `missingCategories` (lines 153-155): required categories not in the
detected set, preserving the declared order of `requiredCategories`. -/
def missingCategoriesOf (detections : List Detection) : List String :=
  requiredCategories.filter (fun category => !(detectedCategoriesOf detections).contains category)

/-- JavaScript `Math.round` (round half toward positive infinity):
`round(q) = ⌊q + 1/2⌋`, computed on the numerator/denominator
representation as `⌊(2 num + den) / (2 den)⌋` with flooring integer
division. -/
def jsRound (q : ℚ) : Int := Int.fdiv (2 * q.num + q.den) (2 * q.den)

/-- `complianceScore` (lines 157-159 and the `Math.round` at line 165):
`round(detectedCategories.size / requiredCategories.length * 100)`, with
0 when the required list is empty.  The exact rational value of
`size / length * 100` is `mkRat (100 * size) length`.  Note the numerator
is the size of the whole detected set, person category included. -/
def complianceScoreOf (detections : List Detection) : Int :=
  if 0 < requiredCategories.length then
    jsRound (mkRat (100 * (detectedCategoriesOf detections).length) (requiredCategories.length))
  else 0

/-- The object returned by `analyzeCompliance` (lines 163-172). -/
structure ComplianceResult where
  personDetected : Bool
  complianceScore : Int
  isCompliant : Bool
  detectedCategories : List String
  missingCategories : List String
  detectedItems : List DetectedItem
  totalRequired : Nat
  totalDetected : Nat
deriving DecidableEq, Repr

/-- `analyzeCompliance` (lines 129-173), for inputs whose labels avoid
`objectPrototypeKeys` (every genuine catalog label does); the variant
under full JavaScript object semantics is `analyzeComplianceJs`. -/
def analyzeCompliance (detections : List Detection) : ComplianceResult :=
  { personDetected := personDetectedOf detections
    complianceScore := complianceScoreOf detections
    isCompliant := (missingCategoriesOf detections).length == 0 && personDetectedOf detections
    detectedCategories := detectedCategoriesOf detections
    missingCategories := missingCategoriesOf detections
    detectedItems := detectedItemsOf detections
    totalRequired := requiredCategories.length
    totalDetected := (detectedCategoriesOf detections).length }

/-- One recommendation record (lines 180-218). -/
structure Recommendation where
  type : String
  message : String
  priority : String
deriving DecidableEq, Repr

/-- The `categoryMessages` table (lines 189-195). -/
def categoryMessages : List (String × String) := [
  ("head_protection", "Wear a safety helmet or hard hat"),
  ("visibility", "Wear a high-visibility safety vest"),
  ("eye_protection", "Wear safety glasses or protective eyewear"),
  ("hand_protection", "Wear safety gloves"),
  ("foot_protection", "Wear safety boots or work boots")]

/-- `category.replace('_', ' ')`: with a string pattern, JavaScript
`replace` substitutes only the first occurrence. -/
def replaceFirstUnderscoreAux : List Char → List Char
  | [] => []
  | c :: rest => if c = '_' then ' ' :: rest else c :: replaceFirstUnderscoreAux rest

/-- String form of the first-occurrence underscore replacement. -/
def replaceFirstUnderscore (s : String) : String :=
  String.mk (replaceFirstUnderscoreAux s.data)

/-- The no-person recommendation (lines 180-184). -/
def noPersonRec : Recommendation :=
  ⟨"error",
   "No person detected in the image. Please ensure the image contains a person for PPE analysis.",
   "high"⟩

/-- The per-missing-category warning (lines 197-201).  A category absent
from `categoryMessages` would interpolate as the string "undefined" in
the template literal, which `getD "undefined"` models. -/
def missingRec (category : String) : Recommendation :=
  ⟨"warning",
   "Missing " ++ replaceFirstUnderscore category ++ ": " ++
     ((categoryMessages.lookup category).getD "undefined"),
   "high"⟩

/-- The success recommendation (lines 205-211). -/
def successRec : Recommendation :=
  ⟨"success", "Great! All required PPE items are detected and properly worn.", "low"⟩

/-- The closing general-safety recommendation (lines 214-218). -/
def infoRec : Recommendation :=
  ⟨"info", "Always ensure PPE is properly fitted and in good condition before starting work.", "medium"⟩

/-- `generateRecommendations` (lines 176-221): sequential pushes onto an
array, rendered as list concatenation in push order. -/
def generateRecommendations (compliance : ComplianceResult) : List Recommendation :=
  (if !compliance.personDetected then [noPersonRec] else []) ++
  (if 0 < compliance.missingCategories.length then
    compliance.missingCategories.map missingRec
  else []) ++
  (if compliance.isCompliant then [successRec] else []) ++
  [infoRec]

/-- The `general` profile's category list (line 230), also the fallback
value of `requirements[workEnvironment] || requirements.general`. -/
def generalRequirements : List String :=
  ["head_protection", "visibility", "eye_protection", "hand_protection", "foot_protection"]

/-- The `requirements` object of `getPPERequirements` (lines 225-231). -/
def requirements : List (String × List String) := [
  ("construction", ["head_protection", "visibility", "eye_protection", "hand_protection", "foot_protection"]),
  ("manufacturing", ["head_protection", "eye_protection", "hand_protection", "foot_protection"]),
  ("laboratory", ["eye_protection", "hand_protection"]),
  ("healthcare", ["hand_protection", "eye_protection"]),
  ("general", generalRequirements)]

/-- `getPPERequirements` (lines 224-234):
`requirements[workEnvironment] || requirements.general`, exact for
every name outside `objectPrototypeKeys`; the full access, prototype
chain included, is `getPPERequirementsJs`. -/
def getPPERequirements (workEnvironment : String) : List String :=
  (requirements.lookup workEnvironment).getD generalRequirements

/-- The fixed `mockDetections` list of `simulatePPEDetection`
(lines 82-119), before the random jitter is applied. -/
def mockDetections : List Detection := [
  ⟨some "person", some (mkRat 95 100), [100, 50, 200, 400]⟩,
  ⟨some "helmet", some (mkRat 88 100), [120, 60, 80, 60]⟩,
  ⟨some "safety vest", some (mkRat 92 100), [110, 120, 180, 120]⟩,
  ⟨some "gloves", some (mkRat 75 100), [80, 350, 60, 40]⟩,
  ⟨some "safety glasses", some (mkRat 82 100), [140, 100, 60, 20]⟩,
  ⟨some "boots", some (mkRat 78 100), [130, 420, 80, 60]⟩]

/-- The spec's second scenario input: the mock detections minus boots. -/
def detectionsNoBoots : List Detection := [
  ⟨some "person", some (mkRat 95 100), [100, 50, 200, 400]⟩,
  ⟨some "helmet", some (mkRat 88 100), [120, 60, 80, 60]⟩,
  ⟨some "safety vest", some (mkRat 92 100), [110, 120, 180, 120]⟩,
  ⟨some "gloves", some (mkRat 75 100), [80, 350, 60, 40]⟩,
  ⟨some "safety glasses", some (mkRat 82 100), [140, 100, 60, 20]⟩]

/-- The spec's laboratory scenario input: a person plus detections
covering exactly eye and hand protection. -/
def labDetections : List Detection := [
  ⟨some "person", some (mkRat 95 100), [100, 50, 200, 400]⟩,
  ⟨some "safety glasses", some (mkRat 82 100), [140, 100, 60, 20]⟩,
  ⟨some "gloves", some (mkRat 75 100), [80, 350, 60, 40]⟩]

/-- A person detection below the confidence threshold, used to witness
the person-presence behaviour. -/
def personLowConf : Detection := ⟨some "person", some (mkRat 2 5), [1]⟩

/-- Outcome of the per-detection admission test of the loop body: `some
(label, entry, c)` when the detection has a label with a catalog entry
and a confidence strictly above the threshold, `none` otherwise.  Used
only to state and prove lemmas about `step`. -/
def admittedOf (d : Detection) : Option (String × CatalogEntry × ℚ) :=
  match d.cls with
  | none => none
  | some label =>
    match lookupItem label with
    | none => none
    | some entry =>
      match d.confidence with
      | none => none
      | some c => if mkRat 1 2 < c then some (label, entry, c) else none

/-- Well-formedness of a detection in the sense of the spec's data model:
both fields present and the confidence within `[0, 1]`. -/
def wellFormed (d : Detection) : Bool :=
  d.cls.isSome &&
    (match d.confidence with
     | some c => decide (0 ≤ c) && decide (c ≤ 1)
     | none => false)

/-- The property names every plain object literal inherits from
`Object.prototype` in JavaScript: accessing one of these keys on
`this.ppeItems` or on `requirements` yields a truthy inherited value
(a built-in function, or the prototype object itself for
`__proto__`) rather than `undefined`. -/
def objectPrototypeKeys : List String :=
  ["constructor", "hasOwnProperty", "isPrototypeOf", "propertyIsEnumerable",
   "toLocaleString", "toString", "valueOf", "__proto__",
   "__defineGetter__", "__defineSetter__", "__lookupGetter__", "__lookupSetter__"]

/-- Result of the full JavaScript property access
`this.ppeItems[label]`: an own catalog entry, a truthy value inherited
from `Object.prototype` (whose `.category` reads as `undefined`), or
`undefined`. -/
inductive JsProp where
  | entry (e : CatalogEntry)
  | inherited
  | undef
deriving DecidableEq, Repr

/-- `this.ppeItems[label]` with full JavaScript semantics: an own key
wins, otherwise an `Object.prototype` key yields a truthy inherited
member, otherwise `undefined`.  `lookupItem` is the restriction of this
access to labels outside `objectPrototypeKeys` (see
`lookupItemJs_agrees`). -/
def lookupItemJs (label : String) : JsProp :=
  match ppeItems.lookup label with
  | some e => JsProp.entry e
  | none =>
    if objectPrototypeKeys.contains label then JsProp.inherited else JsProp.undef

/-- A `detectedItems` element under full JavaScript semantics: the
`category` field read off an inherited prototype member is `undefined`,
modelled as `none`. -/
structure DetectedItemJs where
  item : String
  category : Option String
  confidence : Option ℚ
  bbox : List ℚ
deriving DecidableEq, Repr

/-- `detectedCategories.add(category)` where the added value may be the
JavaScript `undefined` (an ES2015 `Set` stores `undefined` like any
other value, deduplicated). -/
def addCatJs (cats : List (Option String)) (c : Option String) : List (Option String) :=
  if cats.contains c then cats else cats ++ [c]

/-- The loop body of lines 135-150 under full JavaScript semantics:
`item = this.ppeItems[detection.class]` is truthy both for a genuine
catalog entry and for an inherited `Object.prototype` member, and in the
latter case `item.category` is `undefined`, which is then added to the
category set and stored in the pushed item. -/
def stepJs (acc : List (Option String) × List DetectedItemJs × Bool) (d : Detection) :
    List (Option String) × List DetectedItemJs × Bool :=
  let person := acc.2.2 || (d.cls == some "person")
  match d.cls with
  | none => (acc.1, acc.2.1, person)
  | some label =>
    match lookupItemJs label with
    | JsProp.undef => (acc.1, acc.2.1, person)
    | JsProp.entry e =>
      match d.confidence with
      | none => (acc.1, acc.2.1, person)
      | some c =>
        if mkRat 1 2 < c then
          (addCatJs acc.1 (some e.category),
           acc.2.1 ++ [⟨label, some e.category, some c, d.bbox⟩],
           person)
        else (acc.1, acc.2.1, person)
    | JsProp.inherited =>
      match d.confidence with
      | none => (acc.1, acc.2.1, person)
      | some c =>
        if mkRat 1 2 < c then
          (addCatJs acc.1 none,
           acc.2.1 ++ [⟨label, none, some c, d.bbox⟩],
           person)
        else (acc.1, acc.2.1, person)

/-- The whole `forEach` loop under full JavaScript semantics. -/
def processAllJs (detections : List Detection) :
    List (Option String) × List DetectedItemJs × Bool :=
  detections.foldl stepJs ([], [], false)

/-- `detectedCategories` under full JavaScript semantics: may contain
the `undefined` value (`none`) contributed by prototype-chain hits. -/
def detectedCategoriesJsOf (detections : List Detection) : List (Option String) :=
  (processAllJs detections).1

/-- `detectedItems` under full JavaScript semantics. -/
def detectedItemsJsOf (detections : List Detection) : List DetectedItemJs :=
  (processAllJs detections).2.1

/-- `personDetected` under full JavaScript semantics (identical test to
`personDetectedOf`). -/
def personDetectedJsOf (detections : List Detection) : Bool :=
  (processAllJs detections).2.2

/-- `missingCategories` under full JavaScript semantics:
`detectedCategories.has(category)` compares the required category string
against the set's members, so an `undefined` member never matches. -/
def missingCategoriesJsOf (detections : List Detection) : List String :=
  requiredCategories.filter
    (fun category => !(detectedCategoriesJsOf detections).contains (some category))

/-- `complianceScore` under full JavaScript semantics: the numerator is
still `detectedCategories.size`, which now counts an `undefined` member
added by a prototype-chain hit. -/
def complianceScoreJsOf (detections : List Detection) : Int :=
  if 0 < requiredCategories.length then
    jsRound (mkRat (100 * (detectedCategoriesJsOf detections).length) (requiredCategories.length))
  else 0

/-- The `analyzeCompliance` result object under full JavaScript
semantics. -/
structure ComplianceResultJs where
  personDetected : Bool
  complianceScore : Int
  isCompliant : Bool
  detectedCategories : List (Option String)
  missingCategories : List String
  detectedItems : List DetectedItemJs
  totalRequired : Nat
  totalDetected : Nat
deriving DecidableEq, Repr

/-- `analyzeCompliance` (lines 129-173) under full JavaScript object
semantics, prototype chain included.  It agrees with
`analyzeCompliance` on every input whose labels avoid
`objectPrototypeKeys`. -/
def analyzeComplianceJs (detections : List Detection) : ComplianceResultJs :=
  { personDetected := personDetectedJsOf detections
    complianceScore := complianceScoreJsOf detections
    isCompliant := (missingCategoriesJsOf detections).length == 0 && personDetectedJsOf detections
    detectedCategories := detectedCategoriesJsOf detections
    missingCategories := missingCategoriesJsOf detections
    detectedItems := detectedItemsJsOf detections
    totalRequired := requiredCategories.length
    totalDetected := (detectedCategoriesJsOf detections).length }

/-- Result of the full JavaScript access
`requirements[workEnvironment] || requirements.general`: either one of
the profile category arrays, or — for an `Object.prototype` key — the
truthy inherited member itself, which short-circuits the `||` fallback. -/
inductive JsReq where
  | list (cats : List String)
  | inherited
deriving DecidableEq, Repr

/-- `getPPERequirements` (lines 224-234) under full JavaScript
semantics: for a name on the prototype chain the lookup is truthy, so
the `|| requirements.general` fallback never fires and the inherited
member is returned instead of a category list.  `getPPERequirements` is
the restriction to names outside `objectPrototypeKeys` (see
`getPPERequirementsJs_agrees`). -/
def getPPERequirementsJs (workEnvironment : String) : JsReq :=
  match requirements.lookup workEnvironment with
  | some r => JsReq.list r
  | none =>
    if objectPrototypeKeys.contains workEnvironment then JsReq.inherited
    else JsReq.list generalRequirements

/-- A small well-formed input for exercising the prototype-chain bug:
a confident person and helmet. -/
def baseDetections : List Detection := [
  ⟨some "person", some (mkRat 95 100), []⟩,
  ⟨some "helmet", some (mkRat 88 100), []⟩]

/-- A well-formed detection whose label has no catalog entry but is an
`Object.prototype` key. -/
def constructorDetection : Detection := ⟨some "constructor", some (mkRat 9 10), []⟩

lemma step_eq (acc : List String × List DetectedItem × Bool) (d : Detection) :
    step acc d =
      match admittedOf d with
      | some (label, entry, c) =>
        (addCat acc.1 entry.category,
         acc.2.1 ++ [⟨label, entry.category, some c, d.bbox⟩],
         acc.2.2 || (d.cls == some "person"))
      | none => (acc.1, acc.2.1, acc.2.2 || (d.cls == some "person")) := by
  rcases d with ⟨cls, conf, bb⟩
  unfold step admittedOf
  rcases cls with _ | label
  · rfl
  · rcases h : lookupItem label with _ | entry
    · simp [h]
    · rcases conf with _ | c
      · simp [h]
      · by_cases hc : mkRat 1 2 < c <;> simp [h, hc]

lemma step_person (acc : List String × List DetectedItem × Bool) (d : Detection) :
    (step acc d).2.2 = (acc.2.2 || (d.cls == some "person")) := by
  rw [step_eq]
  rcases h : admittedOf d with _ | ⟨label, entry, c⟩ <;> rfl

lemma foldl_person (dets : List Detection) :
    ∀ acc, (dets.foldl step acc).2.2 =
      (acc.2.2 || dets.any fun d => d.cls == some "person") := by
  induction dets with
  | nil => intro acc; simp
  | cons d t ih =>
    intro acc
    rw [List.foldl_cons, ih, List.any_cons, step_person, Bool.or_assoc]

lemma addCat_mem_self (cats : List String) (c : String) : c ∈ addCat cats c := by
  unfold addCat
  split
  · next h => exact List.elem_iff.mp h
  · exact List.mem_append_right _ (List.mem_singleton_self c)

lemma addCat_mem_of (cats : List String) (c x : String) (h : x ∈ cats) :
    x ∈ addCat cats c := by
  unfold addCat
  split
  · exact h
  · exact List.mem_append_left _ h

lemma foldl_cats_mono (dets : List Detection) :
    ∀ acc x, x ∈ acc.1 → x ∈ (dets.foldl step acc).1 := by
  induction dets with
  | nil => intro acc x hx; exact hx
  | cons d t ih =>
    intro acc x hx
    rw [List.foldl_cons]
    apply ih
    rw [step_eq]
    rcases h : admittedOf d with _ | ⟨label, entry, c⟩
    · exact hx
    · exact addCat_mem_of _ _ _ hx

lemma foldl_items_mono (dets : List Detection) :
    ∀ acc it, it ∈ acc.2.1 → it ∈ (dets.foldl step acc).2.1 := by
  induction dets with
  | nil => intro acc it hit; exact hit
  | cons d t ih =>
    intro acc it hit
    rw [List.foldl_cons]
    apply ih
    rw [step_eq]
    rcases h : admittedOf d with _ | ⟨label, entry, c⟩
    · exact hit
    · exact List.mem_append_left _ hit

lemma admittedOf_spec (d : Detection) (l : String) (e : CatalogEntry) (c : ℚ)
    (h : admittedOf d = some (l, e, c)) :
    d.cls = some l ∧ lookupItem l = some e ∧ d.confidence = some c ∧ mkRat 1 2 < c := by
  rcases d with ⟨cls, conf, bb⟩
  rcases cls with _ | label
  · simp [admittedOf] at h
  · rcases hl : lookupItem label with _ | entry
    · simp [admittedOf, hl] at h
    · rcases conf with _ | c2
      · simp [admittedOf, hl] at h
      · by_cases hc : mkRat 1 2 < c2
        · simp only [admittedOf, hl, if_pos hc, Option.some.injEq, Prod.mk.injEq] at h
          obtain ⟨rfl, rfl, rfl⟩ := h
          exact ⟨rfl, hl, rfl, hc⟩
        · simp [admittedOf, hl, hc] at h

lemma foldl_admitted (dets : List Detection) :
    ∀ acc (d : Detection), d ∈ dets →
      ∀ (l : String) (e : CatalogEntry) (c : ℚ), admittedOf d = some (l, e, c) →
        e.category ∈ (dets.foldl step acc).1 ∧
        ∃ it ∈ (dets.foldl step acc).2.1, it.item = l ∧ it.confidence = some c := by
  induction dets with
  | nil => intro acc d hd; cases hd
  | cons d0 t ih =>
    intro acc d hd l e c ha
    rcases List.mem_cons.mp hd with rfl | hmem
    · rw [List.foldl_cons]
      constructor
      · apply foldl_cats_mono
        rw [step_eq, ha]
        exact addCat_mem_self _ _
      · refine ⟨⟨l, e.category, some c, d.bbox⟩, ?_, rfl, rfl⟩
        apply foldl_items_mono
        rw [step_eq, ha]
        exact List.mem_append_right _ (List.mem_singleton_self _)
    · rw [List.foldl_cons]
      exact ih _ d hmem l e c ha

lemma foldl_items_conf (dets : List Detection) :
    ∀ acc, (∀ it ∈ acc.2.1, ∃ c, it.confidence = some c ∧ mkRat 1 2 < c) →
      ∀ it ∈ (dets.foldl step acc).2.1, ∃ c, it.confidence = some c ∧ mkRat 1 2 < c := by
  induction dets with
  | nil => intro acc h; exact h
  | cons d t ih =>
    intro acc h
    rw [List.foldl_cons]
    apply ih
    intro it hit
    rw [step_eq] at hit
    rcases ha : admittedOf d with _ | ⟨l, e, c⟩
    · rw [ha] at hit; exact h it hit
    · rw [ha] at hit
      rcases List.mem_append.mp hit with h1 | h2
      · exact h it h1
      · have heq : it = ⟨l, e.category, some c, d.bbox⟩ := List.mem_singleton.mp h2
        subst heq
        exact ⟨c, rfl, (admittedOf_spec d l e c ha).2.2.2⟩

lemma items_conf (dets : List Detection) :
    ∀ it ∈ detectedItemsOf dets, ∃ c, it.confidence = some c ∧ mkRat 1 2 < c := by
  intro it hit
  exact foldl_items_conf dets ([], [], false) (by intro it2 hit2; cases hit2) it hit

lemma lookupItemJs_agrees (label : String) (h : label ∉ objectPrototypeKeys) :
    lookupItemJs label =
      (match lookupItem label with
       | some e => JsProp.entry e
       | none => JsProp.undef) := by
  have hc : objectPrototypeKeys.contains label = false :=
    Bool.eq_false_iff.mpr fun hct => h (List.elem_iff.mp hct)
  unfold lookupItemJs lookupItem
  rcases hl : ppeItems.lookup label with _ | e
  · simp [hc, h]
  · rfl

lemma getPPERequirementsJs_agrees (name : String) (h : name ∉ objectPrototypeKeys) :
    getPPERequirementsJs name = JsReq.list (getPPERequirements name) := by
  have hc : objectPrototypeKeys.contains name = false :=
    Bool.eq_false_iff.mpr fun hct => h (List.elem_iff.mp hct)
  unfold getPPERequirementsJs getPPERequirements
  rcases hl : requirements.lookup name with _ | r
  · simp [hc, h]
  · rfl

/-- C1: the claim states `score = round(100 * |detectedCategories ∩
requiredCategories| / |requiredCategories|)` and that the construction
scenario without boots scores 80.  The code instead divides the size of
the whole detected-category set — which includes the catalog's `person`
category — by the number of required categories: on the no-boots scenario
the five detected categories (person, head, visibility, hand, eye) give
score 100, not 80, even though `foot_protection` is missing. -/
theorem score_formula_diverges_on_construction_scenario :
    (analyzeCompliance detectionsNoBoots).complianceScore = 100 ∧
    (analyzeCompliance detectionsNoBoots).missingCategories = ["foot_protection"] ∧
    (analyzeCompliance detectionsNoBoots).detectedCategories =
      ["person", "head_protection", "visibility", "hand_protection", "eye_protection"] ∧
    (analyzeCompliance detectionsNoBoots).isCompliant = false := by decide

/-- C2: the claim states that evaluation uses the resolved profile's
required categories, so the laboratory profile with eye and hand covered
scores 100 and is compliant.  In the code `analyzeCompliance` never
consults `getPPERequirements`: it always checks the fixed five-category
`requiredCategories` list, so the laboratory scenario scores 60 and is
not compliant even though both laboratory categories are detected. -/
theorem profile_ignored_for_laboratory :
    getPPERequirements "laboratory" = ["eye_protection", "hand_protection"] ∧
    (analyzeCompliance labDetections).detectedCategories =
      ["person", "eye_protection", "hand_protection"] ∧
    (analyzeCompliance labDetections).complianceScore = 60 ∧
    (analyzeCompliance labDetections).isCompliant = false ∧
    (analyzeCompliance labDetections).totalRequired = 5 := by decide

/-- C3: the claim states the score is always an integer in `[0, 100]`.
On the source's own well-formed mock detections (all six labels known,
all confidences within `[0, 1]`) the detected set has six categories
(`person` included) against five required ones, so the code produces
score 120. -/
theorem score_exceeds_100_on_mock_detections :
    mockDetections.all wellFormed = true ∧
    (analyzeCompliance mockDetections).complianceScore = 120 := by decide

/-- C4: `compliant` is true exactly when a person was detected and no
required category is missing; in particular a report with an absent
person is never compliant. -/
theorem compliant_iff_person_and_no_missing (detections : List Detection) :
    (analyzeCompliance detections).isCompliant = true ↔
      (analyzeCompliance detections).personDetected = true ∧
      (analyzeCompliance detections).missingCategories = [] := by
  simp [analyzeCompliance, Bool.and_eq_true, beq_iff_eq, List.length_eq_zero, and_comm]

/-- C5: a detection with a known catalog label is admitted — it
contributes its entry to `detectedItems` and its category to
`detectedCategories` — exactly when its confidence is strictly greater
than the 0.5 threshold; a confidence equal to the threshold is
excluded. -/
theorem threshold_strict_admission (label : String) (entry : CatalogEntry)
    (h : lookupItem label = some entry) (c : ℚ) (bb : List ℚ) :
    (analyzeCompliance [⟨some label, some c, bb⟩]).detectedItems =
      (if mkRat 1 2 < c then [⟨label, entry.category, some c, bb⟩] else []) ∧
    (analyzeCompliance [⟨some label, some c, bb⟩]).detectedCategories =
      (if mkRat 1 2 < c then [entry.category] else []) := by
  constructor <;>
  · simp only [analyzeCompliance, detectedItemsOf, detectedCategoriesOf, processAll,
      List.foldl, step, h]
    by_cases hc : mkRat 1 2 < c
    · simp [hc, addCat]
    · simp [hc]

/-- Witness for C5 at the threshold boundary: a "helmet" detection with
confidence exactly 0.5 is excluded from items and categories. -/
theorem threshold_strict_admission_witness :
    lookupItem "helmet" = some ⟨true, "head_protection", some ["hard hat", "safety helmet"]⟩ ∧
    ((analyzeCompliance [⟨some "helmet", some (mkRat 1 2), []⟩]).detectedItems =
      (if mkRat 1 2 < mkRat 1 2 then
        [⟨"helmet", "head_protection", some (mkRat 1 2), []⟩] else []) ∧
     (analyzeCompliance [⟨some "helmet", some (mkRat 1 2), []⟩]).detectedCategories =
      (if mkRat 1 2 < mkRat 1 2 then ["head_protection"] else [])) :=
  ⟨rfl, threshold_strict_admission "helmet" _ rfl (mkRat 1 2) []⟩

/-- C6: the claim states that a detection whose label has no catalog
entry never affects `detectedCategories`, `score`, or
`missingCategories`.  Under full JavaScript semantics this is false:
`this.ppeItems['constructor']` hits the `Object.prototype` chain and is
truthy, so a well-formed detection labeled "constructor" at confidence
0.9 — whose label has no catalog entry — adds the `undefined` value to
`detectedCategories` and raises the score from 40 to 60. -/
theorem prototype_label_changes_categories_and_score :
    lookupItem "constructor" = none ∧
    wellFormed constructorDetection = true ∧
    (analyzeComplianceJs baseDetections).detectedCategories =
      [some "person", some "head_protection"] ∧
    (analyzeComplianceJs (baseDetections ++ [constructorDetection])).detectedCategories =
      [some "person", some "head_protection", none] ∧
    (analyzeComplianceJs baseDetections).complianceScore = 40 ∧
    (analyzeComplianceJs (baseDetections ++ [constructorDetection])).complianceScore = 60 := by
  decide

/-- C7: the claim states that every name outside the five defined
profiles resolves to the same required-category list as
`resolve("general")`, and that `resolve` always returns a defined
profile.  Under full JavaScript semantics this is false for names on the
`Object.prototype` chain: `requirements['constructor']` is the inherited
truthy `Object` constructor, so the `|| requirements.general` fallback
never fires and the call returns that inherited member instead of a
category list, while an ordinary unknown name such as
"not-a-real-profile" does fall back to the general profile. -/
theorem prototype_name_skips_general_fallback :
    "constructor" ∉ ["construction", "manufacturing", "laboratory", "healthcare", "general"] ∧
    getPPERequirementsJs "constructor" = JsReq.inherited ∧
    getPPERequirementsJs "general" = JsReq.list generalRequirements ∧
    getPPERequirementsJs "not-a-real-profile" = JsReq.list generalRequirements ∧
    getPPERequirementsJs "constructor" ≠ JsReq.list generalRequirements := by
  decide

/-- C8 counterexample: the claim states that a detection with confidence
outside `[0, 1]` makes the call raise a MalformedDetection error and
produce no report.  The code performs no such validation: a "helmet"
detection with confidence 1.5 is admitted into `detectedItems` and a
complete report (score 20) is returned. -/
theorem malformed_confidence_admitted :
    (analyzeCompliance [⟨some "helmet", some (mkRat 3 2), []⟩]).detectedItems =
      [⟨"helmet", "head_protection", some (mkRat 3 2), []⟩] ∧
    (analyzeCompliance [⟨some "helmet", some (mkRat 3 2), []⟩]).complianceScore = 20 := by
  decide

/-- C8 amended: the analysis performs no malformed-detection validation
and never raises.  A detection missing its label contributes nothing
(and does not set `personDetected`); one missing its confidence is
dropped by the threshold comparison; one with a known label and a
confidence outside `[0, 1]` is admitted whenever the confidence exceeds
0.5; in every case a complete report is returned. -/
theorem no_malformed_validation (c : ℚ) (bb : List ℚ) (hc : mkRat 1 2 < c) :
    (analyzeCompliance [⟨none, some c, bb⟩]).detectedItems = [] ∧
    (analyzeCompliance [⟨none, some c, bb⟩]).personDetected = false ∧
    (analyzeCompliance [⟨some "helmet", none, bb⟩]).detectedItems = [] ∧
    (analyzeCompliance [⟨some "helmet", some c, bb⟩]).detectedItems =
      [⟨"helmet", "head_protection", some c, bb⟩] ∧
    (analyzeCompliance [⟨some "helmet", some c, bb⟩]).complianceScore = 20 := by
  refine ⟨rfl, rfl, rfl, ?_, ?_⟩
  · simp only [analyzeCompliance, detectedItemsOf, processAll, List.foldl, step]
    simp [show lookupItem "helmet" = some ⟨true, "head_protection", some ["hard hat", "safety helmet"]⟩ from rfl, hc]
  · simp only [analyzeCompliance, complianceScoreOf, detectedCategoriesOf, processAll,
      List.foldl, step]
    simp [show lookupItem "helmet" = some ⟨true, "head_protection", some ["hard hat", "safety helmet"]⟩ from rfl, hc, addCat]
    decide

/-- Witness for C8's amended claim at confidence 1.5 (outside `[0,1]`). -/
theorem no_malformed_validation_witness :
    mkRat 1 2 < mkRat 3 2 ∧
    ((analyzeCompliance [⟨none, some (mkRat 3 2), []⟩]).detectedItems = [] ∧
     (analyzeCompliance [⟨none, some (mkRat 3 2), []⟩]).personDetected = false ∧
     (analyzeCompliance [⟨some "helmet", none, []⟩]).detectedItems = [] ∧
     (analyzeCompliance [⟨some "helmet", some (mkRat 3 2), []⟩]).detectedItems =
       [⟨"helmet", "head_protection", some (mkRat 3 2), []⟩] ∧
     (analyzeCompliance [⟨some "helmet", some (mkRat 3 2), []⟩]).complianceScore = 20) :=
  ⟨by decide, no_malformed_validation (mkRat 3 2) [] (by decide)⟩

/-- C9: the recommendation list is exactly: the no-person error (iff the
person is absent), then one warning per missing category in the report's
order, then the success message (iff compliant), and always the closing
info reminder as the last element. -/
theorem recommendations_structure (compliance : ComplianceResult) :
    generateRecommendations compliance =
      (if compliance.personDetected then [] else [noPersonRec]) ++
        compliance.missingCategories.map missingRec ++
        (if compliance.isCompliant then [successRec] else []) ++ [infoRec] ∧
    (generateRecommendations compliance).getLast? = some infoRec := by
  constructor
  · rcases compliance with ⟨p, sc, ic, dc, mc, di, tr, td⟩
    simp only [generateRecommendations]
    cases p <;> cases ic <;> rcases mc with _ | ⟨m, ms⟩ <;> simp
  · simp only [generateRecommendations]
    rw [List.getLast?_concat]

/-- C10: `personDetected` ignores the confidence threshold: any detection
labeled "person" sets it, and when that detection's confidence is at most
0.5 it is at the same time excluded from `detectedItems` (every admitted
item carries a confidence strictly above 0.5, so none carries the
sub-threshold confidence). -/
theorem person_presence_ignores_threshold (dets : List Detection) (d : Detection)
    (hd : d ∈ dets) (hcls : d.cls = some "person") (c : ℚ)
    (_hconf : d.confidence = some c) (hc : ¬ mkRat 1 2 < c) :
    (analyzeCompliance dets).personDetected = true ∧
    (analyzeCompliance dets).detectedItems.all
      (fun it => it.confidence != some c) = true := by
  constructor
  · show personDetectedOf dets = true
    unfold personDetectedOf processAll
    rw [foldl_person]
    simp only [Bool.false_or, List.any_eq_true]
    exact ⟨d, hd, by rw [hcls]; exact beq_self_eq_true _⟩
  · rw [List.all_eq_true]
    intro it hit
    obtain ⟨c2, hc2, hgt⟩ := items_conf dets it hit
    rw [hc2]
    simp only [bne_iff_ne, ne_eq, Option.some.injEq]
    intro heq
    exact hc (heq ▸ hgt)

/-- Witness for C10: a lone person detection at confidence 0.4 yields
`personDetected = true` with an empty `detectedItems`. -/
theorem person_presence_ignores_threshold_witness :
    personLowConf ∈ [personLowConf] ∧
    personLowConf.cls = some "person" ∧
    personLowConf.confidence = some (mkRat 2 5) ∧
    ¬ mkRat 1 2 < mkRat 2 5 ∧
    ((analyzeCompliance [personLowConf]).personDetected = true ∧
     (analyzeCompliance [personLowConf]).detectedItems.all
       (fun it => it.confidence != some (mkRat 2 5)) = true) := by
  refine ⟨?_, rfl, rfl, ?_, ?_⟩
  · decide
  · decide
  · exact person_presence_ignores_threshold [personLowConf] personLowConf
      (by decide) rfl (mkRat 2 5) rfl (by decide)

end SafetySnap
